import Mathlib

/-!
# Verification of the rust-static site generator

Shallow embedding of `src/main.rs` of the rust-static build-and-serve
tool, with theorems checking the specification's statements about its
renderer, builder, watcher, orchestrator, HTTP handler and reload
broadcaster.

Strings from the Rust source are modelled as `List Char`; on the ASCII
data involved, Rust byte indices coincide with character indices.  A
`none` result models a Rust panic (a failing `unwrap`, or a slice whose
start exceeds its end).
-/

namespace RustStatic

/-- Embedding of Rust `str::starts_with` on character lists:
`startsWithL s p` is true when `p` is a leading segment of `s`. -/
def startsWithL : List Char → List Char → Bool
  | _, [] => true
  | [], _ :: _ => false
  | c :: cs, p :: ps => c == p && startsWithL cs ps

/-- Embedding of Rust `str::contains` for a literal pattern. -/
def containsSub (pat : List Char) : List Char → Bool
  | [] => pat.isEmpty
  | c :: rest => startsWithL (c :: rest) pat || containsSub pat rest

/-- Embedding of Rust `str::find`: index of the first character
satisfying the test. -/
def findIdxL (p : Char → Bool) : List Char → Option Nat
  | [] => none
  | c :: rest => if p c then some 0 else (findIdxL p rest).map (fun i => i + 1)

/-- One step of Rust `str::lines`: accumulates the current line in
reverse and splits at each line feed, dropping one carriage return that
immediately precedes the line feed. -/
def rustLinesAux : List Char → List Char → List (List Char)
  | [], acc => if acc.isEmpty then [] else [acc.reverse]
  | '\n' :: rest, acc =>
    (match acc with
     | '\r' :: acc2 => acc2.reverse
     | _ => acc.reverse) :: rustLinesAux rest []
  | c :: rest, acc => rustLinesAux rest (c :: acc)

/-- Embedding of Rust `str::lines` (final line terminator optional, a
final line without a terminator keeps a lone trailing carriage
return). -/
def rustLines (s : List Char) : List (List Char) :=
  rustLinesAux s []

/-- Whitespace test of Rust `char::is_whitespace`, restricted to the
control and space characters that can occur in the ASCII requests and
documents considered here. -/
def isWsChar (c : Char) : Bool :=
  c == ' ' || c == '\t' || c == '\n' || c == '\x0b' || c == '\x0c' || c == '\r'

def splitWsAux : List Char → List Char → List (List Char)
  | [], cur => if cur.isEmpty then [] else [cur.reverse]
  | c :: rest, cur =>
    if isWsChar c then
      if cur.isEmpty then splitWsAux rest [] else cur.reverse :: splitWsAux rest []
    else splitWsAux rest (c :: cur)

/-- Embedding of Rust `str::split_whitespace`: the maximal non-empty
runs of non-whitespace characters. -/
def splitWhitespaceL (l : List Char) : List (List Char) :=
  splitWsAux l []

/-- Per-line conversion from the loop body of `markdown_to_html` in
src/main.rs: the chain of `starts_with` tests for the six heading
levels, the link branch guarded by `starts_with("[") && contains("](")`,
and the paragraph fallback.  `none` models the panics of the link
branch: `find(')')` unwrapping `None`, or the url slice
`&line[start_paren + 1..end_paren]` (or the text slice
`&line[1..end_bracket]`) having its start after its end. -/
def renderLine (line : List Char) : Option (List Char) :=
  if startsWithL line ("# ".toList) then
    some (("<h1>".toList) ++ line.drop 2 ++ ("</h1>\n".toList))
  else if startsWithL line ("## ".toList) then
    some (("<h2>".toList) ++ line.drop 3 ++ ("</h2>\n".toList))
  else if startsWithL line ("### ".toList) then
    some (("<h3>".toList) ++ line.drop 4 ++ ("</h3>\n".toList))
  else if startsWithL line ("#### ".toList) then
    some (("<h4>".toList) ++ line.drop 5 ++ ("</h4>\n".toList))
  else if startsWithL line ("##### ".toList) then
    some (("<h5>".toList) ++ line.drop 6 ++ ("</h5>\n".toList))
  else if startsWithL line ("###### ".toList) then
    some (("<h6>".toList) ++ line.drop 7 ++ ("</h6>\n".toList))
  else if startsWithL line ("[".toList) && containsSub ("](".toList) line then
    match findIdxL (fun c => c == ']') line, findIdxL (fun c => c == '(') line,
          findIdxL (fun c => c == ')') line with
    | some end_bracket, some start_paren, some end_paren =>
      if 1 ≤ end_bracket ∧ start_paren + 1 ≤ end_paren then
        some (("<a href=\"".toList) ++ (line.take end_paren).drop (start_paren + 1)
          ++ ("\">".toList) ++ (line.take end_bracket).drop 1 ++ ("</a>\n".toList))
      else none
    | _, _, _ => none
  else
    some (("<p>".toList) ++ line ++ ("</p>\n".toList))

/-- Option-valued map over the lines: processing stops at the first
panicking line, mirroring the sequential `for` loop. -/
def mapOpt (f : List Char → Option (List Char)) :
    List (List Char) → Option (List (List Char))
  | [] => some []
  | a :: rest =>
    match f a with
    | none => none
    | some b =>
      match mapOpt f rest with
      | none => none
      | some bs => some (b :: bs)

def concatAll : List (List Char) → List Char
  | [] => []
  | l :: ls => l ++ concatAll ls

/-- The successive per-line fragments pushed onto `html` by
`markdown_to_html`. -/
def elements (markdown : List Char) : Option (List (List Char)) :=
  mapOpt renderLine (rustLines markdown)

/-- Embedding of `markdown_to_html` from src/main.rs: the concatenation
of the per-line fragments, `none` when some line panics. -/
def markdown_to_html (markdown : List Char) : Option (List Char) :=
  match elements markdown with
  | none => none
  | some parts => some (concatAll parts)

/-- Embedding of Rust `str::replace` for a non-empty literal pattern:
every non-overlapping occurrence, scanned left to right, is replaced.
The emptiness guard only rules out the empty pattern, which the source
never uses. -/
def replaceList (pat rep : List Char) : List Char → List Char
  | [] => []
  | c :: rest =>
    if h : ¬ pat.isEmpty ∧ startsWithL (c :: rest) pat then
      rep ++ replaceList pat rep ((c :: rest).drop pat.length)
    else
      c :: replaceList pat rep rest
termination_by l => l.length
decreasing_by
  · have hp : 0 < pat.length := by
      cases pat with
      | nil => simp [List.isEmpty] at h
      | cons p ps => simp
    simp [List.length_drop]
    omega
  · simp

/-- Embedding of `apply_template` from src/main.rs, over a reading
function returning `none` exactly when `fs::read_to_string` would
return an `Err` (which the source immediately `unwrap`s, so `none`
also models the resulting panic).  The collection template is read and
substituted first, then the base template. -/
def apply_template (readT : List Char → Option (List Char))
    (template_name content : List Char) : Option (List Char) :=
  match readT (("templates/").toList ++ template_name) with
  | none => none
  | some template =>
    let collection_content := replaceList (("\x7b\x7b content \x7d\x7d").toList) content template
    match readT (("templates/base.html").toList) with
    | none => none
    | some base_template =>
      some (replaceList (("\x7b\x7b title \x7d\x7d").toList) (("My Site").toList)
        (replaceList (("\x7b\x7b content \x7d\x7d").toList) collection_content base_template))

/-- A directory entry as `build_site` consumes it: its path, whether it
is a plain file, and its filename stem. -/
structure DirEntry where
  path : List Char
  isFile : Bool
  stem : List Char

/-- The file-system operations `build_site` performs.  `readDir` models
`fs::read_dir` (with per-entry errors folded into the directory error),
`readFile` models `fs::read_to_string`.  `fs::create_dir_all` and
`fs::write` are modelled as always succeeding. -/
structure BuildFS where
  readDir : List Char → Except (List Char) (List DirEntry)
  readFile : List Char → Except (List Char) (List Char)

/-- The entry loop of `build_site` for one collection: errors of
`read_to_string` propagate through `?` as `Except.error`, while a panic
inside `markdown_to_html` or `apply_template` aborts everything
(`none`). -/
def buildEntries (fs : BuildFS) (collection : List Char) :
    List DirEntry → Option (Except (List Char) Unit)
  | [] => some (Except.ok ())
  | e :: rest =>
    if e.isFile then
      match fs.readFile e.path with
      | Except.error err => some (Except.error err)
      | Except.ok markdown_content =>
        match markdown_to_html markdown_content with
        | none => none
        | some html_content =>
          match apply_template (fun p => (fs.readFile p).toOption)
              (collection ++ (".html").toList) html_content with
          | none => none
          | some _html => buildEntries fs collection rest
    else buildEntries fs collection rest

/-- One collection pass of `build_site`: a `read_dir` error propagates
through `?`. -/
def buildCollection (fs : BuildFS) (collection : List Char) :
    Option (Except (List Char) Unit) :=
  match fs.readDir (("content/").toList ++ collection) with
  | Except.error e => some (Except.error e)
  | Except.ok entries => buildEntries fs collection entries

/-- Embedding of `build_site` from src/main.rs: the collections
`pages` then `projects`, with `?`-propagation of I/O errors and
`none` for a panic inside the pass. -/
def build_site (fs : BuildFS) : Option (Except (List Char) Unit) :=
  match buildCollection fs (("pages").toList) with
  | none => none
  | some (Except.error e) => some (Except.error e)
  | some (Except.ok _) => buildCollection fs (("projects").toList)

/-- Orchestrator state visible in the main loop of src/main.rs: which
server instance is running (a generation counter advanced by each
restart) and the `NOTIFY_RELOAD` flag. -/
structure OrchState where
  serverGen : Nat
  reloadPending : Bool
deriving DecidableEq

/-- The body of the orchestrator's `rx.recv()` arm in `main`: it runs
`build_site().unwrap()` — so an `Err` from the build, or a panic inside
it, panics the main thread (`none`, terminating the process) — and on
success stops the old server, starts a new instance and sets
`NOTIFY_RELOAD`. -/
def handle_change_event (buildResult : Option (Except (List Char) Unit))
    (s : OrchState) : Option OrchState :=
  match buildResult with
  | some (Except.ok _) => some { serverGen := s.serverGen + 1, reloadPending := true }
  | some (Except.error _) => none
  | none => none

/-- The running-maximum loop of `watch_content_directory`: one entry
timestamp at a time, updating `last_modified` and the `changed` flag
exactly as the source `if modified > last_modified` does. -/
def pollOnce : List Nat → Nat → Bool → Nat × Bool
  | [], last_modified, changed => (last_modified, changed)
  | modified :: rest, last_modified, changed =>
    if last_modified < modified then pollOnce rest modified true
    else pollOnce rest last_modified changed

/-- The file system as the watcher can observe it: the paths returned
by `fs::read_dir("content")` (the direct entries of the content root)
and the modification timestamp `fs::metadata(p).modified()` of every
path — the watcher only ever queries it on the direct entries. -/
structure WatchFS where
  dirEntries : List (List Char)
  mtime : List Char → Nat

/-- One poll iteration of `watch_content_directory`: the timestamps of
the direct entries of `content`, folded through the running-maximum
loop starting from the stored timestamp with `changed = false`. -/
def watch_poll (fs : WatchFS) (last_modified : Nat) : Nat × Bool :=
  pollOnce (fs.dirEntries.map fs.mtime) last_modified false

/-- Number of `ChangeEvent`s the iteration sends on `tx`: one when the
`changed` flag ends up set, none otherwise. -/
def watchEvents (fs : WatchFS) (last_modified : Nat) : Nat :=
  if (watch_poll fs last_modified).2 then 1 else 0

/-- The per-message closure of `start_ws_server` in src/main.rs, for
one inbound message of the given client: if `NOTIFY_RELOAD` is set the
handler sends the string `reload` to exactly that client and clears the
flag.  Result: the flag afterwards, and the (client, payload) sends
performed. -/
def ws_on_message (client : Nat) (notifyReload : Bool) :
    Bool × List (Nat × List Char) :=
  if notifyReload then (false, [(client, ("reload").toList)])
  else (notifyReload, [])

/-- A sequence of inbound client messages handled one after the other
on the WebSocket event loop, threading the `NOTIFY_RELOAD` flag. -/
def wsMessageSeq : Bool → List Nat → Bool × List (Nat × List Char)
  | flag, [] => (flag, [])
  | flag, c :: rest =>
    match ws_on_message c flag with
    | (f1, sent1) =>
      match wsMessageSeq f1 rest with
      | (f2, sent2) => (f2, sent1 ++ sent2)

def status200 : List Char := ("HTTP/1.1 200 OK\r\n\r\n").toList

def status404 : List Char := ("HTTP/1.1 404 NOT FOUND\r\n\r\n").toList

/-- The auto-reload script `handle_connection` pushes onto every
response body (brace and quote characters written with hex escapes). -/
def reloadScript : List Char :=
  ("<script>\n            const ws = new WebSocket(\x27ws://127.0.0.1:7879\x27);\n            ws.onmessage = (event) => \x7b\n                if (event.data === \x27reload\x27) \x7b\n                    location.reload();\n                \x7d\n            \x7d;\n        </script>").toList

/-- The request-path extraction of `handle_connection`:
`request.lines().next().unwrap().split_whitespace().nth(1).unwrap()`,
with `none` modelling either `unwrap` panicking. -/
def requestPath (buffer : List Char) : Option (List Char) :=
  match (rustLines buffer).head? with
  | none => none
  | some l => (splitWhitespaceL l).get? 1

/-- The response-completion tail of `handle_connection`: read the
chosen file (`unwrap` panics on failure, modelled `none`), push the
reload script onto the contents, and emit the status line and body (the
bytes written to the stream are their concatenation). -/
def respondWith (fs : List Char → Option (List Char))
    (status_line filename : List Char) : Option (List Char × List Char) :=
  match fs filename with
  | none => none
  | some contents => some (status_line, contents ++ reloadScript)

/-- Embedding of `handle_connection` from src/main.rs over the contents
of the read buffer.  The file system is a partial map from paths to
text contents; `Path::exists` is modelled as presence in the map.  The
source first selects the `(status_line, filename)` pair and then runs
the shared read-and-append tail; here that tail (`respondWith`) is
applied at each selection site, which is the same computation. -/
def handle_connection (fs : List Char → Option (List Char)) (buffer : List Char) :
    Option (List Char × List Char) :=
  if startsWithL buffer (("GET / HTTP/1.1\r\n").toList) then
    respondWith fs status200 (("output/pages/index.html").toList)
  else
    match requestPath buffer with
    | none => none
    | some path =>
      if (fs ((("output").toList) ++ path)).isSome then
        respondWith fs status200 ((("output").toList) ++ path)
      else
        respondWith fs status404 (("output/pages/404.html").toList)

/-- The 1024-byte read buffer of `handle_connection`: the request bytes
followed by the zero bytes of the buffer initialisation. -/
def readIntoBuffer (request : List Char) : List Char :=
  request.take 1024 ++ List.replicate (1024 - min request.length 1024) ('\x00')

/-- `handle_connection` as a function of the raw request bytes: the
stream read fills the zero-initialised 1024-byte buffer first. -/
def handle_request (fs : List Char → Option (List Char)) (request : List Char) :
    Option (List Char × List Char) :=
  handle_connection fs (readIntoBuffer request)

/-! ## Concrete instances used by the witnesses and counterexamples -/

/-- Example watcher file system for the C4 witness: two collection
directories, one of them freshly modified. -/
def exWatchA : WatchFS :=
  ⟨[("content/pages").toList, ("content/projects").toList],
   fun p => if p = ("content/pages").toList then 7 else 4⟩

/-- Watcher file system agreeing with `exWatchB2` on the direct entry
of `content` but not on the nested file `content/pages/hello.md`. -/
def exWatchB1 : WatchFS :=
  ⟨[("content/pages").toList],
   fun p => if p = ("content/pages").toList then 9 else 0⟩

/-- Watcher file system whose nested files all look freshly touched. -/
def exWatchB2 : WatchFS :=
  ⟨[("content/pages").toList],
   fun p => if p = ("content/pages").toList then 9 else 42⟩

/-- The decimal digit character of a heading level. -/
def digitChar : Nat → Char
  | 1 => '1'
  | 2 => '2'
  | 3 => '3'
  | 4 => '4'
  | 5 => '5'
  | 6 => '6'
  | _ => '0'

/-- Opening tag of a heading element of level `n`, as characters. -/
def headingOpen (n : Nat) : List Char :=
  '<' :: 'h' :: digitChar n :: '>' :: []

/-- Closing tag (with the trailing newline the renderer appends) of a
heading element of level `n`, as characters. -/
def headingClose (n : Nat) : List Char :=
  '<' :: '/' :: 'h' :: digitChar n :: '>' :: '\n' :: []

/-- Build file system for the C3 counterexample: the content directory
and document are readable, but no template file exists. -/
def exTemplFS : BuildFS :=
  ⟨fun d => if d = ("content/pages").toList then
      Except.ok [⟨("content/pages/hello.md").toList, true, ("hello").toList⟩]
    else Except.error (("missing dir").toList),
   fun p => if p = ("content/pages/hello.md").toList then
      Except.ok (("# Hi").toList)
    else Except.error (("missing file").toList)⟩

/-- Output tree for the C6 witness: exactly one built page exists. -/
def exSiteFS : List Char → Option (List Char) :=
  fun p => if p = ("output/pages/hello.html").toList then some (("hello").toList)
    else none

/-! ## Watcher lemmas -/

lemma pollOnce_fst_mem (ts : List Nat) :
    ∀ last ch, (pollOnce ts last ch).1 = last ∨ (pollOnce ts last ch).1 ∈ ts := by
  induction ts with
  | nil => intro last ch; left; rfl
  | cons t rest ih =>
    intro last ch
    simp only [pollOnce]
    by_cases hlt : last < t
    · rw [if_pos hlt]
      rcases ih t true with h | h
      · right; rw [h]; exact List.mem_cons_self t rest
      · right; exact List.mem_cons_of_mem t h
    · rw [if_neg hlt]
      rcases ih last ch with h | h
      · left; exact h
      · right; exact List.mem_cons_of_mem t h

lemma pollOnce_le (ts : List Nat) :
    ∀ last ch, last ≤ (pollOnce ts last ch).1 ∧
      ∀ u ∈ ts, u ≤ (pollOnce ts last ch).1 := by
  induction ts with
  | nil =>
    intro last ch
    refine ⟨Nat.le_refl _, ?_⟩
    intro u hu
    cases hu
  | cons t rest ih =>
    intro last ch
    simp only [pollOnce]
    by_cases hlt : last < t
    · rw [if_pos hlt]
      obtain ⟨h1, h2⟩ := ih t true
      refine ⟨Nat.le_trans (Nat.le_of_lt hlt) h1, ?_⟩
      intro u hu
      rcases List.mem_cons.mp hu with rfl | hu
      · exact h1
      · exact h2 u hu
    · rw [if_neg hlt]
      obtain ⟨h1, h2⟩ := ih last ch
      refine ⟨h1, ?_⟩
      intro u hu
      rcases List.mem_cons.mp hu with rfl | hu
      · exact Nat.le_trans (Nat.le_of_not_lt hlt) h1
      · exact h2 u hu

lemma pollOnce_snd_true (ts : List Nat) :
    ∀ last, (pollOnce ts last true).2 = true := by
  induction ts with
  | nil => intro last; rfl
  | cons t rest ih =>
    intro last
    simp only [pollOnce]
    by_cases hlt : last < t
    · rw [if_pos hlt]; exact ih t
    · rw [if_neg hlt]; exact ih last

lemma pollOnce_changed (ts : List Nat) :
    ∀ last, (∃ t ∈ ts, last < t) → (pollOnce ts last false).2 = true := by
  induction ts with
  | nil =>
    intro last h
    obtain ⟨t, ht, _⟩ := h
    cases ht
  | cons t rest ih =>
    intro last h
    simp only [pollOnce]
    by_cases hlt : last < t
    · rw [if_pos hlt]; exact pollOnce_snd_true rest t
    · rw [if_neg hlt]
      obtain ⟨u, hu, hlu⟩ := h
      rcases List.mem_cons.mp hu with rfl | hu
      · exact absurd hlu hlt
      · exact ih last ⟨u, hu, hlu⟩

lemma pollOnce_nochange (ts : List Nat) :
    ∀ last ch, (∀ t ∈ ts, t ≤ last) → pollOnce ts last ch = (last, ch) := by
  induction ts with
  | nil => intro last ch _; rfl
  | cons t rest ih =>
    intro last ch h
    simp only [pollOnce]
    have hle : t ≤ last := h t (List.mem_cons_self t rest)
    rw [if_neg (by omega)]
    exact ih last ch (fun u hu => h u (List.mem_cons_of_mem t hu))

/-! ## Claim theorems: orchestrator, watcher, reload broadcaster -/

/-- C1 counterexample: when the build step returns an error while a
`ChangeEvent` is handled, the orchestrator's `build_site().unwrap()`
panics — there is no surviving orchestrator state at all, contrary to
the claim that the process keeps running with the previous server. -/
theorem build_error_panics_cex :
    (handle_change_event (some (Except.error (("io error").toList)))
      ⟨0, false⟩).isSome = false := rfl

/-- C1 (amended): an error from the build step — or a panic inside it —
makes the orchestrator panic (process termination, modelled `none`); no
new server generation is started and the reload-pending flag is not set
in that cycle.  Only a successful build advances the server generation
and sets the flag. -/
theorem build_error_panics (e : List Char) (s : OrchState) :
    handle_change_event (some (Except.error e)) s = none ∧
    handle_change_event none s = none ∧
    ∀ u, handle_change_event (some (Except.ok u)) s =
      some { serverGen := s.serverGen + 1, reloadPending := true } :=
  ⟨rfl, rfl, fun _ => rfl⟩

/-- C4: in one poll iteration of the content watcher, if some direct
entry's timestamp exceeds the stored one, the stored timestamp becomes
the maximum observed timestamp (it is one of the observed timestamps
and bounds them all) and exactly one `ChangeEvent` is emitted; if no
timestamp exceeds the stored one, no event is emitted and the stored
timestamp is unchanged. -/
theorem watch_poll_spec (fs : WatchFS) (last_modified : Nat) :
    ((∃ t ∈ fs.dirEntries.map fs.mtime, last_modified < t) →
      (watch_poll fs last_modified).2 = true ∧
      (watch_poll fs last_modified).1 ∈ fs.dirEntries.map fs.mtime ∧
      (∀ u ∈ fs.dirEntries.map fs.mtime, u ≤ (watch_poll fs last_modified).1) ∧
      watchEvents fs last_modified = 1) ∧
    ((∀ t ∈ fs.dirEntries.map fs.mtime, t ≤ last_modified) →
      watch_poll fs last_modified = (last_modified, false) ∧
      watchEvents fs last_modified = 0) := by
  constructor
  · intro h
    have hsnd : (watch_poll fs last_modified).2 = true :=
      pollOnce_changed _ _ h
    have hmem := pollOnce_fst_mem (fs.dirEntries.map fs.mtime) last_modified false
    have hle := pollOnce_le (fs.dirEntries.map fs.mtime) last_modified false
    refine ⟨hsnd, ?_, hle.2, ?_⟩
    · rcases hmem with heq | hm
      · obtain ⟨t, ht, hlt⟩ := h
        have hub := hle.2 t ht
        have : (watch_poll fs last_modified).1 = last_modified := heq
        omega
      · exact hm
    · simp only [watchEvents, hsnd, if_true]
  · intro h
    have hpoll : watch_poll fs last_modified = (last_modified, false) :=
      pollOnce_nochange _ _ false h
    refine ⟨hpoll, ?_⟩
    simp only [watchEvents, hpoll, Bool.false_eq_true, if_false]

/-- C4 witness at a concrete file system and stored timestamp. -/
theorem watch_poll_spec_w :
    (watch_poll exWatchA 5).2 = true ∧
    (watch_poll exWatchA 5).1 ∈ exWatchA.dirEntries.map exWatchA.mtime ∧
    (∀ u ∈ exWatchA.dirEntries.map exWatchA.mtime, u ≤ (watch_poll exWatchA 5).1) ∧
    watchEvents exWatchA 5 = 1 :=
  (watch_poll_spec exWatchA 5).1 (by decide)

/-- C5: the watcher's poll step depends only on the modification
timestamps of the direct entries of the content root: two file-system
states with the same direct entries and the same timestamps on them
behave identically — nested files' timestamps are never read. -/
theorem watch_poll_only_direct_entries (fs1 fs2 : WatchFS) (last_modified : Nat)
    (hdir : fs1.dirEntries = fs2.dirEntries)
    (hmt : ∀ p ∈ fs1.dirEntries, fs1.mtime p = fs2.mtime p) :
    watch_poll fs1 last_modified = watch_poll fs2 last_modified ∧
    watchEvents fs1 last_modified = watchEvents fs2 last_modified := by
  have hmap : fs1.dirEntries.map fs1.mtime = fs2.dirEntries.map fs2.mtime := by
    rw [← hdir]
    exact List.map_congr_left hmt
  constructor
  · unfold watch_poll
    rw [hmap]
  · unfold watchEvents watch_poll
    rw [hmap]

/-- C5 witness: the two file systems differ on a nested file's
timestamp yet the poll step behaves identically. -/
theorem watch_poll_only_direct_entries_w :
    exWatchB1.mtime (("content/pages/hello.md").toList) ≠
      exWatchB2.mtime (("content/pages/hello.md").toList) ∧
    watch_poll exWatchB1 3 = watch_poll exWatchB2 3 :=
  ⟨by decide,
   (watch_poll_only_direct_entries exWatchB1 exWatchB2 3 rfl (by decide)).1⟩

lemma wsMessageSeq_false (clients : List Nat) :
    wsMessageSeq false clients = (false, []) := by
  induction clients with
  | nil => rfl
  | cons c rest ih => simp [wsMessageSeq, ws_on_message, ih]

/-- C9: when the pending-reload flag is set and a client message is
handled, the handler sends `reload` to exactly that client and clears
the flag; over any subsequent sequence of client messages, only the
first client handled after the flag was set receives the reload
instruction. -/
theorem reload_flag_first_client_only (c : Nat) (clients : List Nat) :
    ws_on_message c true = (false, [(c, ("reload").toList)]) ∧
    wsMessageSeq true (c :: clients) = (false, [(c, ("reload").toList)]) := by
  refine ⟨rfl, ?_⟩
  simp [wsMessageSeq, ws_on_message, wsMessageSeq_false]

/-! ## Claim theorems: renderer -/

/-- C7: for every heading level between 1 and 6, a line of exactly that
many leading hash marks followed by a space renders to exactly one
heading element of the matching level whose text is the remainder; no
level is captured by a shorter heading rule. -/
theorem heading_levels_render (n : Nat) (rest : List Char)
    (h1 : 1 ≤ n) (h6 : n ≤ 6) :
    renderLine (List.replicate n '#' ++ ' ' :: rest) =
      some (headingOpen n ++ rest ++ headingClose n) := by
  interval_cases n <;>
    simp [renderLine, startsWithL, headingOpen, headingClose, digitChar,
      List.replicate]

/-- C7 witness: a level-3 heading line with concrete text. -/
theorem heading_levels_render_w :
    renderLine (List.replicate 3 '#' ++ ' ' :: (("Hi").toList)) =
      some (headingOpen 3 ++ (("Hi").toList) ++ headingClose 3) :=
  heading_levels_render 3 (("Hi").toList) (by decide) (by decide)

lemma mapOpt_all_some (f : List Char → Option (List Char)) (l : List (List Char))
    (h : ∀ a ∈ l, (f a).isSome = true) :
    ∃ r, mapOpt f l = some r ∧ r.length = l.length := by
  induction l with
  | nil => exact ⟨[], rfl, rfl⟩
  | cons a rest ih =>
    have ha := h a (List.mem_cons_self a rest)
    obtain ⟨b, hb⟩ := Option.isSome_iff_exists.mp ha
    obtain ⟨r, hr, hlen⟩ := ih (fun x hx => h x (List.mem_cons_of_mem a hx))
    refine ⟨b :: r, ?_, by simp [hlen]⟩
    simp [mapOpt, hb, hr]

/-- C2 counterexample: the renderer does not always emit one element
per line.  The one-line document `[a](b` passes the link guard
(`starts_with("[") && contains("](")`) but has no closing parenthesis,
so `find(')').unwrap()` panics: one input line yields no elements and
no output at all. -/
theorem render_count_cex :
    (rustLines (("[a](b").toList)).length = 1 ∧
    elements (("[a](b").toList) = none ∧
    markdown_to_html (("[a](b").toList) = none := by
  decide

/-- C2 (amended): every line matching neither a heading prefix nor the
link guard becomes exactly its own paragraph element — an empty line an
empty paragraph — and for every document none of whose lines panics,
rendering N lines yields exactly N elements, concatenated in order.  A
line that passes the link guard without a well-placed `)` panics
instead, so such documents produce no output (see the
counterexample). -/
theorem paragraph_and_count (line markdown : List Char) :
    (startsWithL line ['#', ' '] = false →
     startsWithL line ['#', '#', ' '] = false →
     startsWithL line ['#', '#', '#', ' '] = false →
     startsWithL line ['#', '#', '#', '#', ' '] = false →
     startsWithL line ['#', '#', '#', '#', '#', ' '] = false →
     startsWithL line ['#', '#', '#', '#', '#', '#', ' '] = false →
     (startsWithL line ['['] && containsSub [']', '('] line) = false →
     renderLine line = some (("<p>".toList) ++ line ++ ("</p>\n".toList))) ∧
    renderLine [] = some (("<p></p>\n").toList) ∧
    ((∀ l ∈ rustLines markdown, (renderLine l).isSome = true) →
     ∃ els, elements markdown = some els ∧
       els.length = (rustLines markdown).length ∧
       markdown_to_html markdown = some (concatAll els)) := by
  refine ⟨?_, by simp [renderLine, startsWithL], ?_⟩
  · intro h1 h2 h3 h4 h5 h6 h7
    have h7' : ¬ (startsWithL line ['['] = true ∧ containsSub [']', '('] line = true) := by
      intro hc
      rw [hc.1, hc.2] at h7
      simp at h7
    simp [renderLine, h1, h2, h3, h4, h5, h6, h7']
  · intro h
    obtain ⟨els, hels, hlen⟩ := mapOpt_all_some renderLine (rustLines markdown) h
    have helements : elements markdown = some els := hels
    refine ⟨els, helements, hlen, ?_⟩
    simp [markdown_to_html, helements]

/-- C2 witness: a non-matching line renders as its own paragraph, and a
three-line document (with a blank middle line) yields exactly three
elements. -/
theorem paragraph_and_count_w :
    renderLine (("hello").toList) =
      some (("<p>".toList) ++ (("hello").toList) ++ ("</p>\n".toList)) ∧
    ∃ els, elements (("a\n\nb").toList) = some els ∧
      els.length = (rustLines (("a\n\nb").toList)).length ∧
      markdown_to_html (("a\n\nb").toList) = some (concatAll els) :=
  ⟨(paragraph_and_count (("hello").toList) []).1 (by decide) (by decide) (by decide)
     (by decide) (by decide) (by decide) (by decide),
   (paragraph_and_count [] (("a\n\nb").toList)).2.2 (by decide)⟩

/-! ## Link-line lemmas -/

lemma containsSub_of_startsWith (pat l2 : List Char)
    (h : startsWithL l2 pat = true) :
    ∀ l1, containsSub pat (l1 ++ l2) = true := by
  intro l1
  induction l1 with
  | nil =>
    simp only [List.nil_append]
    cases l2 with
    | nil =>
      cases pat with
      | nil => rfl
      | cons p ps => simp [startsWithL] at h
    | cons c cs => simp [containsSub, h]
  | cons a rest ih =>
    simp only [List.cons_append, containsSub, List.append_eq]
    rw [ih]
    simp

lemma findIdxL_append_of_none (p : Char → Bool) (l2 : List Char) :
    ∀ l1, (∀ a ∈ l1, p a = false) →
      findIdxL p (l1 ++ l2) = (findIdxL p l2).map (fun i => i + l1.length) := by
  intro l1
  induction l1 with
  | nil =>
    intro _
    cases hfl : findIdxL p l2 <;> simp [hfl]
  | cons a rest ih =>
    intro h
    have ha : p a = false := h a (List.mem_cons_self a rest)
    have hrest := ih (fun x hx => h x (List.mem_cons_of_mem a hx))
    simp only [List.cons_append, List.append_eq, findIdxL, ha, Bool.false_eq_true,
      if_false, hrest, List.length_cons]
    cases hfl : findIdxL p l2 <;> simp [hfl, Nat.add_assoc]

lemma take_len_append (l1 l2 : List Char) : (l1 ++ l2).take l1.length = l1 := by
  induction l1 with
  | nil => rfl
  | cons a rest ih => simp [ih]

lemma drop_len_append (l1 l2 : List Char) : (l1 ++ l2).drop l1.length = l2 := by
  induction l1 with
  | nil => rfl
  | cons a rest ih => simp [ih]

/-- The link branch of `renderLine`, fully determined by the guard
results, the three `find` indices and the slice bounds. -/
lemma renderLine_link (line : List Char) (eb sp ep : Nat)
    (hh1 : startsWithL line ['#', ' '] = false)
    (hh2 : startsWithL line ['#', '#', ' '] = false)
    (hh3 : startsWithL line ['#', '#', '#', ' '] = false)
    (hh4 : startsWithL line ['#', '#', '#', '#', ' '] = false)
    (hh5 : startsWithL line ['#', '#', '#', '#', '#', ' '] = false)
    (hh6 : startsWithL line ['#', '#', '#', '#', '#', '#', ' '] = false)
    (hg1 : startsWithL line ['['] = true)
    (hg2 : containsSub [']', '('] line = true)
    (heb : findIdxL (fun c => c == ']') line = some eb)
    (hsp : findIdxL (fun c => c == '(') line = some sp)
    (hep : findIdxL (fun c => c == ')') line = some ep)
    (h1 : 1 ≤ eb) (h2 : sp + 1 ≤ ep) :
    renderLine line = some ((("<a href=\"").toList) ++ ((line.take ep).drop (sp + 1))
      ++ (("\">").toList) ++ ((line.take eb).drop 1) ++ (("</a>\n").toList)) := by
  simp [renderLine, hh1, hh2, hh3, hh4, hh5, hh6, hg1, hg2, heb, hsp, hep, h1, h2]

/-! ## Claim theorems: templates and build errors -/

/-- C3 counterexample: when the collection template cannot be read,
`apply_template` panics (`unwrap` on the read), and the build step's
result is a panic (`none`), not a reported error value — contrary to
the claim that the failure propagates to the caller as an error. -/
theorem template_error_cex :
    apply_template (fun p => ((exTemplFS.readFile p).toOption))
      (("pages.html").toList) (("<h1>Hi</h1>\n").toList) = none ∧
    build_site exTemplFS = none := by
  constructor <;> rfl

/-- C3 (amended): `apply_template` panics — aborting the process rather
than returning an error to `build_site` — exactly when the named
collection template or the base template cannot be read. -/
theorem apply_template_panic_iff (readT : List Char → Option (List Char))
    (template_name content : List Char) :
    apply_template readT template_name content = none ↔
      (readT (("templates/").toList ++ template_name) = none ∨
       readT (("templates/base.html").toList) = none) := by
  unfold apply_template
  cases h1 : readT ((("templates/").toList ++ template_name)) with
  | none => simp
  | some t =>
    cases h2 : readT ((("templates/base.html").toList)) with
    | none => simp [h1]
    | some b => simp [h1, h2]

/-- C3 witness: a reading function with no readable files makes
`apply_template` panic. -/
theorem apply_template_panic_iff_w :
    apply_template (fun _ => none) (("pages.html").toList) [] = none :=
  (apply_template_panic_iff (fun _ => none) (("pages.html").toList) []).mpr
    (Or.inl rfl)

/-- C8: a line exactly matching the pattern `[A](B)` — read with the
first occurring `]`, `(` and `)` as delimiters, so `A` contains none of
`]`, `(`, `)` and `B` contains no `)` — renders to exactly one link
element with text `A` and target `B`.  The rule is applied to a single
line, so it never spans line boundaries. -/
theorem link_line_renders (A B : List Char)
    (hA1 : ']' ∉ A) (hA2 : '(' ∉ A) (hA3 : ')' ∉ A) (hB : ')' ∉ B) :
    renderLine ('[' :: (A ++ (']' :: ('(' :: (B ++ [')']))))) =
      some ((("<a href=\"").toList) ++ B ++ (("\">").toList) ++ A
        ++ (("</a>\n").toList)) := by
  have hh : ∀ k : List Char,
      startsWithL ('[' :: (A ++ (']' :: ('(' :: (B ++ [')']))))) ('#' :: k) = false := by
    intro k
    simp [startsWithL]
  have hg1 : startsWithL ('[' :: (A ++ (']' :: ('(' :: (B ++ [')']))))) ['['] = true := by
    simp [startsWithL]
  have hg2 : containsSub [']', '('] ('[' :: (A ++ (']' :: ('(' :: (B ++ [')']))))) = true := by
    have hsw : startsWithL (']' :: ('(' :: (B ++ [')']))) [']', '('] = true := by
      simp [startsWithL]
    have hc := containsSub_of_startsWith [']', '('] (']' :: ('(' :: (B ++ [')']))) hsw
      ('[' :: A)
    simpa using hc
  have hbA1 : ∀ a ∈ ('[' :: A), (a == ']') = false := by
    intro a ha
    rw [beq_eq_false_iff_ne]
    rintro rfl
    simp at ha
    exact hA1 ha
  have hbA2 : ∀ a ∈ ('[' :: (A ++ [']'])), (a == '(') = false := by
    intro a ha
    rw [beq_eq_false_iff_ne]
    rintro rfl
    simp at ha
    exact hA2 ha
  have hbA3 : ∀ a ∈ ('[' :: (A ++ (']' :: ('(' :: B)))), (a == ')') = false := by
    intro a ha
    rw [beq_eq_false_iff_ne]
    rintro rfl
    simp at ha
    rcases ha with ha | ha
    · exact hA3 ha
    · exact hB ha
  have e1 : '[' :: (A ++ (']' :: ('(' :: (B ++ [')'])))) =
      ('[' :: A) ++ (']' :: ('(' :: (B ++ [')']))) := by simp
  have e2 : '[' :: (A ++ (']' :: ('(' :: (B ++ [')'])))) =
      ('[' :: (A ++ [']'])) ++ ('(' :: (B ++ [')'])) := by simp
  have e3 : '[' :: (A ++ (']' :: ('(' :: (B ++ [')'])))) =
      ('[' :: (A ++ (']' :: ('(' :: B)))) ++ [')'] := by simp
  have heb : findIdxL (fun c => c == ']')
      ('[' :: (A ++ (']' :: ('(' :: (B ++ [')']))))) = some (A.length + 1) := by
    rw [e1, findIdxL_append_of_none _ _ _ hbA1]
    simp [findIdxL]
  have hsp : findIdxL (fun c => c == '(')
      ('[' :: (A ++ (']' :: ('(' :: (B ++ [')']))))) = some (A.length + 2) := by
    rw [e2, findIdxL_append_of_none _ _ _ hbA2]
    simp [findIdxL]
  have hep : findIdxL (fun c => c == ')')
      ('[' :: (A ++ (']' :: ('(' :: (B ++ [')']))))) = some (A.length + B.length + 3) := by
    rw [e3, findIdxL_append_of_none _ _ _ hbA3]
    simp [findIdxL]
    omega
  have hslice2 : ((('[' :: (A ++ (']' :: ('(' :: (B ++ [')']))))).take (A.length + 1)).drop 1) = A := by
    rw [e1]
    have hlen1 : ('[' :: A).length = A.length + 1 := by simp
    rw [← hlen1, take_len_append]
    simp
  have hslice1 : ((('[' :: (A ++ (']' :: ('(' :: (B ++ [')']))))).take
      (A.length + B.length + 3)).drop (A.length + 2 + 1)) = B := by
    rw [e3]
    have hlen3 : ('[' :: (A ++ (']' :: ('(' :: B)))).length = A.length + B.length + 3 := by
      simp
      omega
    rw [← hlen3, take_len_append]
    have e4 : '[' :: (A ++ (']' :: ('(' :: B))) = ('[' :: (A ++ [']', '('])) ++ B := by
      simp
    have hlen4 : ('[' :: (A ++ [']', '('])).length = A.length + 2 + 1 := by
      simp
    rw [e4, ← hlen4, drop_len_append]
  rw [renderLine_link ('[' :: (A ++ (']' :: ('(' :: (B ++ [')'])))))
      (A.length + 1) (A.length + 2) (A.length + B.length + 3)
      (hh [' ']) (hh ['#', ' ']) (hh ['#', '#', ' ']) (hh ['#', '#', '#', ' '])
      (hh ['#', '#', '#', '#', ' ']) (hh ['#', '#', '#', '#', '#', ' '])
      hg1 hg2 heb hsp hep (by omega) (by omega)]
  rw [hslice1, hslice2]

/-- C8 witness: the line `[go](http://x)` renders to a link element
with text `go` and target `http://x`. -/
theorem link_line_renders_w :
    renderLine ('[' :: ((("go").toList) ++ (']' :: ('(' :: ((("http://x").toList) ++ [')']))))) =
      some ((("<a href=\"").toList) ++ (("http://x").toList) ++ (("\">").toList)
        ++ (("go").toList) ++ (("</a>\n").toList)) :=
  link_line_renders (("go").toList) (("http://x").toList)
    (by decide) (by decide) (by decide) (by decide)

/-! ## Claim theorems: HTTP origin server -/

/-- C6: request resolution of the origin server.  A root request is
served the index document with status 200; any other parsable request
path is resolved to `output` + path — served with status 200 and the
file's content when that file exists, and with status 404 and the
not-found document otherwise; every response body has the reload script
appended.  (The index, requested, or not-found document being readable
is what lets the final `unwrap` succeed.) -/
theorem handle_connection_resolution (fs : List Char → Option (List Char))
    (buffer : List Char) :
    (∀ idx, startsWithL buffer (("GET / HTTP/1.1\r\n").toList) = true →
      fs (("output/pages/index.html").toList) = some idx →
      handle_connection fs buffer = some (status200, idx ++ reloadScript)) ∧
    (∀ path c, startsWithL buffer (("GET / HTTP/1.1\r\n").toList) = false →
      requestPath buffer = some path →
      fs ((("output").toList) ++ path) = some c →
      handle_connection fs buffer = some (status200, c ++ reloadScript)) ∧
    (∀ path nf, startsWithL buffer (("GET / HTTP/1.1\r\n").toList) = false →
      requestPath buffer = some path →
      fs ((("output").toList) ++ path) = none →
      fs (("output/pages/404.html").toList) = some nf →
      handle_connection fs buffer = some (status404, nf ++ reloadScript)) := by
  refine ⟨?_, ?_, ?_⟩
  · intro idx hroot hidx
    unfold handle_connection respondWith
    rw [hroot, hidx]
    rfl
  · intro path c hroot hpath hfile
    unfold handle_connection respondWith
    rw [hroot, hpath]
    dsimp only
    rw [hfile]
    rfl
  · intro path nf hroot hpath hmiss h404
    unfold handle_connection respondWith
    rw [hroot, hpath]
    dsimp only
    rw [hmiss, h404]
    rfl

/-- C6 witness: requesting the one existing page returns 200 with its
content plus the reload script. -/
theorem handle_connection_resolution_w :
    handle_connection exSiteFS
        (("GET /pages/hello.html HTTP/1.1\r\nHost: localhost").toList) =
      some (status200, (("hello").toList) ++ reloadScript) :=
  (handle_connection_resolution exSiteFS
      (("GET /pages/hello.html HTTP/1.1\r\nHost: localhost").toList)).2.1
    (("/pages/hello.html").toList) (("hello").toList)
    (by decide) (by decide) (by decide)

/-- C10: any request whose buffer does not start with the root request
line and whose first line has no second whitespace-separated token
makes `handle_connection` panic (`nth(1).unwrap()` on `None`) instead
of producing a response. -/
theorem malformed_request_panics (fs : List Char → Option (List Char))
    (request : List Char)
    (hroot : startsWithL (readIntoBuffer request) (("GET / HTTP/1.1\r\n").toList) = false)
    (hpath : requestPath (readIntoBuffer request) = none) :
    handle_request fs request = none := by
  unfold handle_request handle_connection
  rw [hroot, hpath]
  rfl

set_option maxRecDepth 10000 in
/-- C10 witness: the empty request — a read that leaves the buffer all
zero bytes — panics the handler even with a fully readable output
tree. -/
theorem malformed_request_panics_w :
    handle_request (fun _ => some []) [] = none :=
  malformed_request_panics (fun _ => some []) [] (by decide) (by decide)

end RustStatic
